import Mathlib

/-!
Verification of the dataset-loading and feature-preparation pipeline shared by
the two notebooks of this repository (an SVM notebook and an RNN notebook).

The hand-written code of the repository is `load_images_from_folder`, the calls
to `train_test_split` (test_size 0.25, random_state 90) and `StandardScaler`
(fit on the training subset, transform on both subsets), and, on the RNN path
only, a reshape of each flat 4096-long scaled feature row into 64 steps of 64
values.  PIL, numpy and sklearn internals are external library code; where a
claim depends on them they are modelled from the specification, and each such
definition says so in its doc comment.
-/

/-- A decoded grayscale image: a grid of rows of 8-bit pixel intensities. -/
abbrev GrayImage : Type := List (List Nat)

/-- One directory entry: a filename together with the outcome of
`Image.open(path).convert('L')` on it.  Decoding happens in the PIL library,
outside the repository, so each file carries its decode outcome: `Except.ok`
holds the decoded grayscale pixel grid (arbitrary dimensions, as on disk),
`Except.error` holds the exception message PIL would raise. -/
structure FileEntry where
  name : String
  content : Except String GrayImage

/-- A filesystem fragment: `os.listdir` keyed by directory path.  `none`
models a listing that raises (missing directory, permission error on the
directory itself); `some es` is the directory listing in filesystem order. -/
abbrev FileSystem : Type := String → Option (List FileEntry)

/-- `os.path.join` for the two-component paths the loader builds. -/
def joinPath (a b : String) : String := a ++ "/" ++ b

/-- Modelled from the spec: `img.resize((64, 64))` is PIL library code outside
the repository.  The spec fixes only that the output is exactly 64 x 64 under a
fixed resampling policy; a nearest-neighbour kernel stands in for the PIL
kernel, and no claim depends on the resampled values, only on the dimensions. -/
def resize64 (g : GrayImage) : GrayImage :=
  let h := g.length
  let w := (g.headD []).length
  (List.range 64).map (fun i => (List.range 64).map (fun j =>
    ((g.getD (i * h / 64) []).getD (j * w / 64) 0)))

/-- `np.array(img).flatten()`: row-major flattening of the pixel grid. -/
def flattenImage (g : GrayImage) : List Nat := g.flatten

/-- The accumulated state of the loading loop: the `images`, `labels` lists the
loop appends to, and the diagnostics printed for files that failed to decode. -/
structure LoadAcc where
  images : List (List Nat)
  labels : List Nat
  logs : List String

/-- The diagnostic printed for a file that failed to decode:
`Error loading image {img_path}: {e}`. -/
def loadErrorMsg (root sub : String) (p : String × String) : String :=
  "Error loading image " ++ joinPath (joinPath root sub) p.1 ++ ": " ++ p.2

namespace SVM

/-- The body of the inner loop of `load_images_from_folder` in the SVM
notebook: try to decode the entry; on success append the flattened resized
image and the label, on failure print the diagnostic and continue. -/
def processEntry (root sub : String) (label : Nat) (acc : LoadAcc)
    (e : FileEntry) : LoadAcc :=
  match e.content with
  | Except.ok img =>
      { acc with
        images := acc.images ++ [flattenImage (resize64 img)],
        labels := acc.labels ++ [label] }
  | Except.error msg =>
      { acc with
        logs := acc.logs ++ [loadErrorMsg root sub (e.name, msg)] }

/-- `load_images_from_folder` of the SVM notebook: iterate over the `no` (label
0) then `yes` (label 1) subdirectories, listing each and folding the per-entry
loop over the listing.  A listing failure is outside the try/except around the
per-file decode, so it propagates and aborts the whole call (`Except.error`). -/
def load_images_from_folder (fs : FileSystem) (folder : String) :
    Except String LoadAcc :=
  match fs (joinPath folder "no") with
  | none => Except.error ("listdir failed: " ++ joinPath folder "no")
  | some es0 =>
    match fs (joinPath folder "yes") with
    | none => Except.error ("listdir failed: " ++ joinPath folder "yes")
    | some es1 =>
      Except.ok (es1.foldl (processEntry folder "yes" 1)
        (es0.foldl (processEntry folder "no" 0)
          { images := [], labels := [], logs := [] }))

end SVM

namespace RNN

/-- The body of the inner loop of `load_images_from_folder` in the RNN
notebook; the notebook duplicates the SVM loader verbatim. -/
def processEntry (root sub : String) (label : Nat) (acc : LoadAcc)
    (e : FileEntry) : LoadAcc :=
  match e.content with
  | Except.ok img =>
      { acc with
        images := acc.images ++ [flattenImage (resize64 img)],
        labels := acc.labels ++ [label] }
  | Except.error msg =>
      { acc with
        logs := acc.logs ++ [loadErrorMsg root sub (e.name, msg)] }

/-- `load_images_from_folder` of the RNN notebook, duplicated from the SVM
notebook character for character (modulo one comment). -/
def load_images_from_folder (fs : FileSystem) (folder : String) :
    Except String LoadAcc :=
  match fs (joinPath folder "no") with
  | none => Except.error ("listdir failed: " ++ joinPath folder "no")
  | some es0 =>
    match fs (joinPath folder "yes") with
    | none => Except.error ("listdir failed: " ++ joinPath folder "yes")
    | some es1 =>
      Except.ok (es1.foldl (processEntry folder "yes" 1)
        (es0.foldl (processEntry folder "no" 0)
          { images := [], labels := [], logs := [] }))

end RNN

/-- The successfully decoded images of a listing, in listing order. -/
def decodedImages (es : List FileEntry) : List GrayImage :=
  es.filterMap (fun e => e.content.toOption)

/-- The entries of a listing that fail to decode, in listing order, each with
its filename and failure reason. -/
def decodeFailures (es : List FileEntry) : List (String × String) :=
  es.filterMap (fun e =>
    match e.content with
    | Except.ok _ => none
    | Except.error msg => some (e.name, msg))

/-- Modelled from the spec: the size of the test subset chosen by
`train_test_split`, which is sklearn library code outside the repository.  Per
the spec this is `round(test_size * n)` subject to the splitting library own
rounding convention, and the sklearn convention for a fractional `test_size` is
the ceiling. -/
def nTestOf (testSize : ℚ) (n : Nat) : Nat := Nat.ceil (testSize * n)

/-- Modelled from the spec: the index-level core of sklearn
`train_test_split(..., test_size, random_state=90)`, which is library code
outside the repository.  The seeded uniformly random permutation of the sample
indices is abstracted as the argument `perm` (the claims quantify over it or
hypothesise that it permutes `List.range n`); the library sends the first
`nTestOf testSize n` permuted indices to the test subset and the rest to the
training subset, and fails when either subset would be empty (per the spec,
when it cannot form two non-trivial subsets). -/
def splitIndices (perm : List Nat) (testSize : ℚ) (n : Nat) :
    Except String (List Nat × List Nat) :=
  if 0 < nTestOf testSize n ∧ nTestOf testSize n < n then
    Except.ok (perm.drop (nTestOf testSize n), perm.take (nTestOf testSize n))
  else
    Except.error "train_test_split: resulting train or test set is empty"

/-- Modelled from the spec: sklearn `train_test_split(X, y, test_size=0.25,
random_state=90)` on the loaded feature matrix and label vector, returning
`(X_train, X_test, y_train, y_test)`: the same index partition is applied to
the rows of `X` and to `y`. -/
def train_test_split (X : List (List ℝ)) (y : List Nat) (testSize : ℚ)
    (perm : List Nat) :
    Except String (List (List ℝ) × List (List ℝ) × List Nat × List Nat) :=
  match splitIndices perm testSize X.length with
  | Except.error e => Except.error e
  | Except.ok (trainIdx, testIdx) =>
    Except.ok (trainIdx.map (fun i => X.getD i []),
      testIdx.map (fun i => X.getD i []),
      trainIdx.map (fun i => y.getD i 0),
      testIdx.map (fun i => y.getD i 0))

/-- Mean of a list of reals, as a per-column helper for the scaler. -/
noncomputable def listMean (l : List ℝ) : ℝ := l.sum / l.length

/-- Population variance of a list of reals (the sklearn convention,
`ddof = 0`). -/
noncomputable def listVar (l : List ℝ) : ℝ :=
  (l.map (fun x => (x - listMean l) ^ 2)).sum / l.length

/-- Column `j` of a row-major feature matrix. -/
def column (X : List (List ℝ)) (j : Nat) : List ℝ :=
  X.map (fun row => row.getD j 0)

/-- The number of feature columns of a row-major feature matrix. -/
def numFeatures (X : List (List ℝ)) : Nat := (X.headD []).length

/-- The state of a fitted `StandardScaler`: the per-column mean and scale
vectors, the artifact the notebooks persist alongside the model. -/
structure ScalerState where
  mean : List ℝ
  scale : List ℝ

namespace StandardScaler

/-- Modelled from the spec: `StandardScaler.fit` is sklearn library code
outside the repository.  Per the spec it computes, per feature column of its
input, the mean and the standard deviation across all rows, and stores these
pairs as its state.  The standard deviation is the square root of the
population variance; the zero-variance-column guard is left open by the spec
and is not modelled. -/
noncomputable def fit (X : List (List ℝ)) : ScalerState :=
  { mean := (List.range (numFeatures X)).map (fun j => listMean (column X j)),
    scale := (List.range (numFeatures X)).map (fun j =>
      Real.sqrt (listVar (column X j))) }

/-- Modelled from the spec: `StandardScaler.transform` on one row: per column,
`(value - mean[col]) / std[col]`. -/
noncomputable def transformRow (s : ScalerState) (row : List ℝ) : List ℝ :=
  (List.range s.mean.length).map (fun j =>
    (row.getD j 0 - s.mean.getD j 0) / s.scale.getD j 0)

/-- Modelled from the spec: `StandardScaler.transform` applies the fitted
per-column standardization to every row of its input. -/
noncomputable def transform (s : ScalerState) (X : List (List ℝ)) : List (List ℝ) :=
  X.map (transformRow s)

end StandardScaler

/-- The result of the shared feature-preparation pipeline: the scaled feature
matrices, the split label vectors, and the fitted scaler state. -/
structure PrepResult where
  XTrain : List (List ℝ)
  XTest : List (List ℝ)
  yTrain : List Nat
  yTest : List Nat
  scaler : ScalerState

namespace SVM

/-- The feature-scaling stage of the SVM notebook, lines 68 to 70 of the
preprocessing cell: `scaler = StandardScaler()`,
`X_train = scaler.fit_transform(X_train)`, `X_test = scaler.transform(X_test)`.
Returns the fitted scaler together with both transformed matrices. -/
noncomputable def scaleFeatures (XTr XTe : List (List ℝ)) :
    ScalerState × List (List ℝ) × List (List ℝ) :=
  let scaler := StandardScaler.fit XTr
  (scaler, StandardScaler.transform scaler XTr,
    StandardScaler.transform scaler XTe)

/-- The full preprocessing cell of the SVM notebook: load the dataset, split it
with `test_size=0.25` (the seeded shuffle abstracted as `perm`), fit the scaler
on the training subset and transform both subsets. -/
noncomputable def prepare (fs : FileSystem) (folder : String) (perm : List Nat) :
    Except String PrepResult :=
  match load_images_from_folder fs folder with
  | Except.error e => Except.error e
  | Except.ok r =>
    let X : List (List ℝ) := r.images.map (fun v => v.map (fun p => (p : ℝ)))
    match train_test_split X r.labels (1/4) perm with
    | Except.error e => Except.error e
    | Except.ok (XTr, XTe, yTr, yTe) =>
      let scaled := scaleFeatures XTr XTe
      Except.ok
        { XTrain := scaled.2.1, XTest := scaled.2.2,
          yTrain := yTr, yTest := yTe, scaler := scaled.1 }

end SVM

namespace RNN

/-- The feature-scaling stage of the RNN notebook, duplicated from the SVM
notebook. -/
noncomputable def scaleFeatures (XTr XTe : List (List ℝ)) :
    ScalerState × List (List ℝ) × List (List ℝ) :=
  let scaler := StandardScaler.fit XTr
  (scaler, StandardScaler.transform scaler XTr,
    StandardScaler.transform scaler XTe)

/-- The first three stages of the RNN notebook preprocessing cell (loader,
splitter, scaler), duplicated from the SVM notebook; the RNN notebook then
additionally reshapes the scaled matrices. -/
noncomputable def prepareScaled (fs : FileSystem) (folder : String) (perm : List Nat) :
    Except String PrepResult :=
  match load_images_from_folder fs folder with
  | Except.error e => Except.error e
  | Except.ok r =>
    let X : List (List ℝ) := r.images.map (fun v => v.map (fun p => (p : ℝ)))
    match train_test_split X r.labels (1/4) perm with
    | Except.error e => Except.error e
    | Except.ok (XTr, XTe, yTr, yTe) =>
      let scaled := scaleFeatures XTr XTe
      Except.ok
        { XTrain := scaled.2.1, XTest := scaled.2.2,
          yTrain := yTr, yTest := yTe, scaler := scaled.1 }

end RNN

/-- Row-major grouping of a flat row into `n` consecutive steps of `width`
values each: the per-row core of `X.reshape((X.shape[0], 64, 64))`. -/
def toSteps (width : Nat) : Nat → List ℝ → List (List ℝ)
  | 0, _ => []
  | n + 1, l => l.take width :: toSteps width n (l.drop width)

/-- The numpy reshape of one flat feature row into `steps` steps of `width`
values: fails (numpy raises ValueError) unless the total element count
matches. -/
def reshapeRow (steps width : Nat) (row : List ℝ) :
    Option (List (List ℝ)) :=
  if row.length = steps * width then some (toSteps width steps row) else none

/-- The pixel vector the loader appends for one successfully decoded image:
`np.array(img.resize((64, 64))).flatten()`. -/
def pixelsOf (g : GrayImage) : List Nat := flattenImage (resize64 g)

/-- Concrete fixture: the listing of a `no` subdirectory with one decodable
file and one corrupt file. -/
def entriesNoA : List FileEntry :=
  [{ name := "a.png", content := Except.ok [[3]] },
   { name := "b.png", content := Except.error "cannot identify image file" }]

/-- Concrete fixture: the listing of a `yes` subdirectory with one decodable
file. -/
def entriesYesA : List FileEntry :=
  [{ name := "c.png", content := Except.ok [[7, 8], [9, 10]] }]

/-- Concrete fixture: a filesystem holding the two category subdirectories of
root `data`. -/
def fsA : FileSystem := fun p =>
  if p = "data/no" then some entriesNoA
  else if p = "data/yes" then some entriesYesA
  else none

/-- Concrete fixture: a filesystem with no directories at all. -/
def fsEmpty : FileSystem := fun _ => none

/-! ## General list lemmas -/

/-- Flattening a list of rows of uniform length `w` yields `count * w`
elements. -/
theorem flatten_length_uniform {α : Type} (w : Nat) :
    ∀ (l : List (List α)), (∀ r ∈ l, r.length = w) →
      l.flatten.length = l.length * w := by
  intro l
  induction l with
  | nil => intro _; simp
  | cons r l ih =>
    intro hw
    have hr : r.length = w := hw r (List.mem_cons_self r l)
    have ht : ∀ s ∈ l, s.length = w := fun s hs => hw s (List.mem_cons_of_mem r hs)
    simp [List.flatten_cons, ih ht, hr, Nat.succ_mul, Nat.add_comm]

/-- Indexing a row-major flattening of uniform rows: element `w * i + j` of
the flattening is element `j` of row `i`. -/
theorem flatten_getD_uniform {α : Type} (w : Nat) (d : α) :
    ∀ (l : List (List α)) (i j : Nat), (∀ r ∈ l, r.length = w) →
      i < l.length → j < w →
      l.flatten.getD (w * i + j) d = (l.getD i []).getD j d := by
  intro l
  induction l with
  | nil => intro i j _ hi _; simp at hi
  | cons r l ih =>
    intro i j hw hi hj
    have hr : r.length = w := hw r (List.mem_cons_self r l)
    have ht : ∀ s ∈ l, s.length = w := fun s hs => hw s (List.mem_cons_of_mem r hs)
    cases i with
    | zero =>
      rw [List.flatten_cons, Nat.mul_zero, Nat.zero_add,
        List.getD_append _ _ _ _ (by omega), List.getD_cons_zero]
    | succ i =>
      have hidx : w * (i + 1) + j = r.length + (w * i + j) := by
        rw [hr]; ring
      rw [List.flatten_cons, hidx,
        List.getD_append_right _ _ _ _ (by omega), List.getD_cons_succ]
      have : r.length + (w * i + j) - r.length = w * i + j := by omega
      rw [this, ih i j ht (by simpa using hi) hj]

/-- Indexing a map over `List.range`. -/
theorem getD_map_range {α : Type} (n j : Nat) (f : Nat → α) (d : α)
    (h : j < n) : ((List.range n).map f).getD j d = f j := by
  rw [List.getD_eq_getElem _ _ (by simpa using h)]
  simp

/-- Indexing a mapped list inside its bounds. -/
theorem getD_map_lt {α β : Type} (f : α → β) (l : List α) (i : Nat)
    (d : α) (d' : β) (h : i < l.length) :
    (l.map f).getD i d' = f (l.getD i d) := by
  rw [List.getD_eq_getElem _ _ (by simpa using h), List.getElem_map,
    List.getD_eq_getElem _ _ h]

/-! ## Resize and flatten lemmas -/

/-- The resized image always has exactly 64 rows. -/
theorem resize64_length (g : GrayImage) : (resize64 g).length = 64 := by
  simp [resize64]

/-- Every row of the resized image has exactly 64 pixels. -/
theorem resize64_row_length (g : GrayImage) :
    ∀ row ∈ resize64 g, row.length = 64 := by
  intro row hrow
  simp only [resize64, List.mem_map] at hrow
  obtain ⟨i, _, rfl⟩ := hrow
  simp

/-- The flattened resized image always has exactly 4096 pixels. -/
theorem pixelsOf_length (g : GrayImage) : (pixelsOf g).length = 4096 := by
  rw [pixelsOf, flattenImage,
    flatten_length_uniform 64 (resize64 g) (resize64_row_length g),
    resize64_length]

/-- The flattening is row-major: pixel `64 * i + j` of the flat vector is
pixel `(i, j)` of the resized image. -/
theorem pixelsOf_getD (g : GrayImage) (i j : Nat) (hi : i < 64)
    (hj : j < 64) :
    (pixelsOf g).getD (64 * i + j) 0 = ((resize64 g).getD i []).getD j 0 := by
  rw [pixelsOf, flattenImage]
  exact flatten_getD_uniform 64 0 (resize64 g) i j (resize64_row_length g)
    (by rw [resize64_length]; exact hi) hj

/-! ## Loader characterization -/

/-- Folding the per-entry loop of the SVM loader over a listing appends, in
listing order, the processed pixels and the fixed label for every entry that
decodes, and one diagnostic for every entry that fails. -/
theorem svm_foldl_processEntry (root sub : String) (lab : Nat)
    (es : List FileEntry) : ∀ acc : LoadAcc,
    es.foldl (SVM.processEntry root sub lab) acc =
      { images := acc.images ++ (decodedImages es).map pixelsOf,
        labels := acc.labels ++ List.replicate (decodedImages es).length lab,
        logs := acc.logs ++ (decodeFailures es).map (loadErrorMsg root sub) } := by
  induction es with
  | nil => intro acc; simp [decodedImages, decodeFailures]
  | cons e es ih =>
    intro acc
    rw [List.foldl_cons, ih]
    cases hc : e.content with
    | ok img =>
      simp [SVM.processEntry, hc, decodedImages, decodeFailures,
        List.filterMap_cons, Except.toOption, pixelsOf, List.replicate_succ]
    | error msg =>
      simp [SVM.processEntry, hc, decodedImages, decodeFailures,
        List.filterMap_cons, Except.toOption]

/-- The SVM loader, when both category listings succeed, returns exactly the
processed `no` images (label 0) followed by the processed `yes` images
(label 1), with one diagnostic per failed entry. -/
theorem svm_load_spec (fs : FileSystem) (root : String)
    (es0 es1 : List FileEntry)
    (h0 : fs (joinPath root "no") = some es0)
    (h1 : fs (joinPath root "yes") = some es1) :
    SVM.load_images_from_folder fs root = Except.ok
      { images := (decodedImages es0).map pixelsOf ++
          (decodedImages es1).map pixelsOf,
        labels := List.replicate (decodedImages es0).length 0 ++
          List.replicate (decodedImages es1).length 1,
        logs := (decodeFailures es0).map (loadErrorMsg root "no") ++
          (decodeFailures es1).map (loadErrorMsg root "yes") } := by
  unfold SVM.load_images_from_folder
  rw [h0, h1]
  simp [svm_foldl_processEntry]

/-! ## Reshape lemmas -/

/-- Flattening the steps recovers the original row when the length matches. -/
theorem toSteps_flatten (w : Nat) :
    ∀ (n : Nat) (l : List ℝ), l.length = n * w →
      (toSteps w n l).flatten = l := by
  intro n
  induction n with
  | zero =>
    intro l h
    simp only [Nat.zero_mul] at h
    simp [toSteps, (List.length_eq_zero).1 h]
  | succ n ih =>
    intro l h
    have hd : (l.drop w).length = n * w := by
      rw [List.length_drop, h, Nat.succ_mul]; omega
    simp only [toSteps, List.flatten_cons, ih (l.drop w) hd,
      List.take_append_drop]

/-- Step `i` of the reshaped row is the `i`-th block of `w` consecutive
values. -/
theorem toSteps_getD (w : Nat) :
    ∀ (n i : Nat) (l : List ℝ), i < n →
      (toSteps w n l).getD i [] = (l.drop (w * i)).take w := by
  intro n
  induction n with
  | zero => intro i l h; omega
  | succ n ih =>
    intro i l h
    cases i with
    | zero => simp [toSteps]
    | succ i =>
      simp only [toSteps, List.getD_cons_succ, ih i (l.drop w) (by omega),
        List.drop_drop]
      rw [Nat.mul_succ, Nat.add_comm]

/-- Reshaping the row-major flattening of a 64-grid of rows of width `w`
recovers the grid. -/
theorem toSteps_of_grid (w : Nat) :
    ∀ m : List (List ℝ), (∀ r ∈ m, r.length = w) →
      toSteps w m.length m.flatten = m := by
  intro m
  induction m with
  | nil => intro _; simp [toSteps]
  | cons r m ih =>
    intro hw
    have hr : r.length = w := hw r (List.mem_cons_self r m)
    have ht : ∀ s ∈ m, s.length = w := fun s hs =>
      hw s (List.mem_cons_of_mem r hs)
    have h1 : (r ++ m.flatten).take w = r := by
      rw [← hr]; exact List.take_left r m.flatten
    have h2 : (r ++ m.flatten).drop w = m.flatten := by
      rw [← hr]; exact List.drop_left r m.flatten
    simp only [List.length_cons, toSteps, List.flatten_cons]
    rw [h1, h2, ih ht]

/-! ## Splitter lemmas -/

/-- With `test_size = 0.25` the test subset is nonempty whenever the dataset
is. -/
theorem nTestOf_quarter_pos (n : Nat) (hn : 1 ≤ n) : 0 < nTestOf (1/4) n := by
  rw [nTestOf, Nat.ceil_pos]
  have h : (0 : ℚ) < n := by exact_mod_cast (by omega : 0 < n)
  linarith

/-- With `test_size = 0.25` the train subset is nonempty whenever the dataset
has at least two samples. -/
theorem nTestOf_quarter_lt (n : Nat) (hn : 2 ≤ n) : nTestOf (1/4) n < n := by
  have h1 : 1 ≤ n := by omega
  have hc : ((1/4 : ℚ) * n) ≤ ((n - 1 : Nat) : ℚ) := by
    push_cast [Nat.cast_sub h1]
    have h2 : (2 : ℚ) ≤ n := by exact_mod_cast hn
    linarith
  have := Nat.ceil_le.2 hc
  rw [nTestOf]
  omega

/-! ## Claim theorems -/

/-- Claim C2: for every sample appended by the loader, its label equals the
index of its source subdirectory: the label vector is exactly one 0 for every
image decoded from the `no` listing followed by one 1 for every image decoded
from the `yes` listing, and the labels stay aligned with the appended
images. -/
theorem loader_labels_by_subdirectory (fs : FileSystem) (root : String)
    (es0 es1 : List FileEntry)
    (h0 : fs (joinPath root "no") = some es0)
    (h1 : fs (joinPath root "yes") = some es1) :
    ∃ r : LoadAcc, SVM.load_images_from_folder fs root = Except.ok r ∧
      r.labels = List.replicate (decodedImages es0).length 0 ++
        List.replicate (decodedImages es1).length 1 ∧
      r.images.length = (decodedImages es0).length +
        (decodedImages es1).length ∧
      r.labels.length = r.images.length := by
  refine ⟨_, svm_load_spec fs root es0 es1 h0 h1, rfl, by simp, by simp⟩

/-- Claim C2 witness: on the concrete fixture filesystem the loader assigns
label 0 to the `no` image and label 1 to the `yes` image. -/
theorem loader_labels_by_subdirectory_witness :
    fsA (joinPath "data" "no") = some entriesNoA ∧
    fsA (joinPath "data" "yes") = some entriesYesA ∧
    (∃ r : LoadAcc, SVM.load_images_from_folder fsA "data" = Except.ok r ∧
      r.labels = List.replicate (decodedImages entriesNoA).length 0 ++
        List.replicate (decodedImages entriesYesA).length 1 ∧
      r.images.length = (decodedImages entriesNoA).length +
        (decodedImages entriesYesA).length ∧
      r.labels.length = r.images.length) :=
  ⟨rfl, rfl, loader_labels_by_subdirectory fsA "data" entriesNoA entriesYesA
    rfl rfl⟩

/-- Claim C4: a failing entry is skipped (the run still returns a result), the
loaded dataset length equals the number of successfully decoded files, and one
diagnostic naming the offending path and the failure reason is emitted per
failed entry. -/
theorem loader_skips_bad_files_with_diagnostics (fs : FileSystem)
    (root : String) (es0 es1 : List FileEntry)
    (h0 : fs (joinPath root "no") = some es0)
    (h1 : fs (joinPath root "yes") = some es1) :
    ∃ r : LoadAcc, SVM.load_images_from_folder fs root = Except.ok r ∧
      r.images.length = (decodedImages es0).length +
        (decodedImages es1).length ∧
      r.logs = (decodeFailures es0).map (loadErrorMsg root "no") ++
        (decodeFailures es1).map (loadErrorMsg root "yes") ∧
      (∀ p : String × String, loadErrorMsg root "no" p =
        "Error loading image " ++ joinPath (joinPath root "no") p.1 ++
          ": " ++ p.2) := by
  refine ⟨_, svm_load_spec fs root es0 es1 h0 h1, by simp, rfl, fun p => rfl⟩

/-- Claim C4 witness: on the concrete fixture the corrupt file `b.png` is
skipped, the dataset holds the two decodable files, and the diagnostic names
the path and reason. -/
theorem loader_skips_bad_files_with_diagnostics_witness :
    fsA (joinPath "data" "no") = some entriesNoA ∧
    fsA (joinPath "data" "yes") = some entriesYesA ∧
    (∃ r : LoadAcc, SVM.load_images_from_folder fsA "data" = Except.ok r ∧
      r.images.length = (decodedImages entriesNoA).length +
        (decodedImages entriesYesA).length ∧
      r.logs = (decodeFailures entriesNoA).map (loadErrorMsg "data" "no") ++
        (decodeFailures entriesYesA).map (loadErrorMsg "data" "yes") ∧
      (∀ p : String × String, loadErrorMsg "data" "no" p =
        "Error loading image " ++ joinPath (joinPath "data" "no") p.1 ++
          ": " ++ p.2)) :=
  ⟨rfl, rfl, loader_skips_bad_files_with_diagnostics fsA "data" entriesNoA
    entriesYesA rfl rfl⟩

/-- Claim C7: every successfully loaded sample is the row-major flattening of
the grayscale image resized to exactly 64 x 64, hence a length-4096 pixel
vector; all `no` samples precede all `yes` samples and listing order is
preserved within each class. -/
theorem loader_pixel_format_and_ordering (fs : FileSystem) (root : String)
    (es0 es1 : List FileEntry)
    (h0 : fs (joinPath root "no") = some es0)
    (h1 : fs (joinPath root "yes") = some es1) :
    ∃ r : LoadAcc, SVM.load_images_from_folder fs root = Except.ok r ∧
      r.images = (decodedImages es0).map pixelsOf ++
        (decodedImages es1).map pixelsOf ∧
      (∀ v ∈ r.images, v.length = 4096) ∧
      (∀ g : GrayImage, (resize64 g).length = 64 ∧
        ∀ row ∈ resize64 g, row.length = 64) ∧
      (∀ (g : GrayImage) (i j : Nat), i < 64 → j < 64 →
        (pixelsOf g).getD (64 * i + j) 0 =
          ((resize64 g).getD i []).getD j 0) := by
  refine ⟨_, svm_load_spec fs root es0 es1 h0 h1, rfl, ?_, ?_, ?_⟩
  · intro v hv
    simp only [List.mem_append, List.mem_map] at hv
    rcases hv with ⟨g, _, rfl⟩ | ⟨g, _, rfl⟩ <;> exact pixelsOf_length g
  · exact fun g => ⟨resize64_length g, resize64_row_length g⟩
  · exact fun g i j hi hj => pixelsOf_getD g i j hi hj

/-- Claim C7 witness: on the concrete fixture every loaded sample has 4096
pixels and the `no` image precedes the `yes` image. -/
theorem loader_pixel_format_and_ordering_witness :
    fsA (joinPath "data" "no") = some entriesNoA ∧
    fsA (joinPath "data" "yes") = some entriesYesA ∧
    (∃ r : LoadAcc, SVM.load_images_from_folder fsA "data" = Except.ok r ∧
      r.images = (decodedImages entriesNoA).map pixelsOf ++
        (decodedImages entriesYesA).map pixelsOf ∧
      (∀ v ∈ r.images, v.length = 4096) ∧
      (∀ g : GrayImage, (resize64 g).length = 64 ∧
        ∀ row ∈ resize64 g, row.length = 64) ∧
      (∀ (g : GrayImage) (i j : Nat), i < 64 → j < 64 →
        (pixelsOf g).getD (64 * i + j) 0 =
          ((resize64 g).getD i []).getD j 0)) :=
  ⟨rfl, rfl, loader_pixel_format_and_ordering fsA "data" entriesNoA
    entriesYesA rfl rfl⟩

/-- Claim C10: when either category subdirectory cannot be listed, the loader
aborts the whole run (the per-entry recovery covers only the decode of
individual files), in both notebooks. -/
theorem loader_aborts_on_missing_subdirectory (fs : FileSystem)
    (folder : String)
    (h : fs (joinPath folder "no") = none ∨
         fs (joinPath folder "yes") = none) :
    (∃ msg, SVM.load_images_from_folder fs folder = Except.error msg) ∧
    (∃ msg, RNN.load_images_from_folder fs folder = Except.error msg) := by
  constructor
  · unfold SVM.load_images_from_folder
    rcases h with h | h
    · rw [h]; exact ⟨_, rfl⟩
    · cases h0 : fs (joinPath folder "no") with
      | none => exact ⟨_, rfl⟩
      | some es0 => rw [h]; exact ⟨_, rfl⟩
  · unfold RNN.load_images_from_folder
    rcases h with h | h
    · rw [h]; exact ⟨_, rfl⟩
    · cases h0 : fs (joinPath folder "no") with
      | none => exact ⟨_, rfl⟩
      | some es0 => rw [h]; exact ⟨_, rfl⟩

/-- Claim C10 witness: on a filesystem with no directories the loader of
either notebook aborts with an error. -/
theorem loader_aborts_on_missing_subdirectory_witness :
    ((fsEmpty (joinPath "data" "no") = none ∨
      fsEmpty (joinPath "data" "yes") = none)) ∧
    (∃ msg, SVM.load_images_from_folder fsEmpty "data" = Except.error msg) ∧
    (∃ msg, RNN.load_images_from_folder fsEmpty "data" = Except.error msg) :=
  ⟨Or.inl rfl, loader_aborts_on_missing_subdirectory fsEmpty "data"
    (Or.inl rfl)⟩

/-- Claim C3: for a dataset of at least 2 samples and any test fraction in
(0,1) the splitter accepts, the produced index subsets partition the dataset:
their sizes sum to the dataset size, no sample index appears in both, and
every sample index appears in one of them. -/
theorem split_partitions_dataset (n : Nat) (perm : List Nat) (ts : ℚ)
    (tr te : List Nat) (hperm : perm.Perm (List.range n)) (hn : 2 ≤ n)
    (hts0 : 0 < ts) (hts1 : ts < 1)
    (hok : splitIndices perm ts n = Except.ok (tr, te)) :
    tr.length + te.length = n ∧ (∀ i, i ∈ tr → i ∉ te) ∧
      (∀ i, i < n → i ∈ tr ∨ i ∈ te) := by
  have hlen : perm.length = n := by
    rw [hperm.length_eq, List.length_range]
  unfold splitIndices at hok
  split_ifs at hok with hcond
  · simp only [Except.ok.injEq, Prod.mk.injEq] at hok
    obtain ⟨htr, hte⟩ := hok
    subst htr
    subst hte
    obtain ⟨hpos, hlt⟩ := hcond
    refine ⟨?_, ?_, ?_⟩
    · rw [List.length_drop, List.length_take, hlen]
      omega
    · have hnd : perm.Nodup := (hperm.nodup_iff).2 (List.nodup_range n)
      have hnd2 : (perm.take (nTestOf ts n) ++
          perm.drop (nTestOf ts n)).Nodup := by
        rw [List.take_append_drop]; exact hnd
      obtain ⟨_, _, hdisj⟩ := List.nodup_append.1 hnd2
      exact fun i hitr hite => hdisj hite hitr
    · intro i hi
      have him : i ∈ perm := hperm.mem_iff.2 (List.mem_range.2 hi)
      rw [← List.take_append_drop (nTestOf ts n) perm] at him
      rcases List.mem_append.1 him with h | h
      · exact Or.inr h
      · exact Or.inl h

/-- Claim C3 witness: splitting four samples with the reference fraction 0.25
along the concrete permutation [2,0,3,1] yields a partition. -/
theorem split_partitions_dataset_witness :
    ([2, 0, 3, 1] : List Nat).Perm (List.range 4) ∧ 2 ≤ 4 ∧
    (0 : ℚ) < 1/4 ∧ (1/4 : ℚ) < 1 ∧
    splitIndices [2, 0, 3, 1] (1/4) 4 = Except.ok ([0, 3, 1], [2]) ∧
    (([0, 3, 1] : List Nat).length + ([2] : List Nat).length = 4 ∧
      (∀ i, i ∈ ([0, 3, 1] : List Nat) → i ∉ ([2] : List Nat)) ∧
      (∀ i, i < 4 → i ∈ ([0, 3, 1] : List Nat) ∨ i ∈ ([2] : List Nat))) := by
  have hceil : nTestOf (1/4) 4 = 1 := by
    rw [nTestOf, Nat.ceil_eq_iff (by norm_num)]
    norm_num
  have hsplit : splitIndices [2, 0, 3, 1] (1/4) 4 = Except.ok ([0, 3, 1], [2]) := by
    unfold splitIndices
    rw [hceil]
    norm_num
  exact ⟨by decide, by omega, by norm_num, by norm_num, hsplit,
    split_partitions_dataset 4 [2, 0, 3, 1] (1/4) [0, 3, 1] [2] (by decide)
      (by omega) (by norm_num) (by norm_num) hsplit⟩

/-- Claim C8: with the reference configuration `test_size = 0.25` the splitter
fails with an error, rather than returning a partition, whenever the dataset
has fewer than 2 samples. -/
theorem split_fails_below_two_samples (perm : List Nat) (n : Nat)
    (hn : n < 2) :
    ∃ msg, splitIndices perm (1/4) n = Except.error msg := by
  have hne : ¬(0 < nTestOf (1/4) n ∧ nTestOf (1/4) n < n) := by
    rintro ⟨hpos, hlt⟩
    interval_cases n
    · rw [nTestOf] at hpos
      norm_num at hpos
    · have h1 : nTestOf (1/4) 1 = 1 := by
        rw [nTestOf, Nat.ceil_eq_iff (by norm_num)]
        norm_num
      rw [h1] at hlt
      omega
  refine ⟨"train_test_split: resulting train or test set is empty", ?_⟩
  unfold splitIndices
  rw [if_neg hne]

/-- Claim C8 witness: a single-sample dataset makes the splitter fail. -/
theorem split_fails_below_two_samples_witness :
    1 < 2 ∧ ∃ msg, splitIndices [0] (1/4) 1 = Except.error msg :=
  ⟨by omega, split_fails_below_two_samples [0] 1 (by omega)⟩

/-- Claim C6 (amended): with `test_size = 0.25` and at least 2 samples, the
splitter puts `ceil(test_size * n)` samples (the splitting library rounding
convention) into the test subset and the remaining `n - ceil(test_size * n)`
into the train subset. -/
theorem split_test_count_is_ceil (n : Nat) (perm : List Nat) (hn : 2 ≤ n)
    (hlen : perm.length = n) :
    ∃ tr te, splitIndices perm (1/4) n = Except.ok (tr, te) ∧
      te.length = Nat.ceil ((1/4 : ℚ) * n) ∧
      tr.length = n - Nat.ceil ((1/4 : ℚ) * n) := by
  have hpos := nTestOf_quarter_pos n (by omega)
  have hlt := nTestOf_quarter_lt n hn
  refine ⟨perm.drop (nTestOf (1/4) n), perm.take (nTestOf (1/4) n), ?_, ?_, ?_⟩
  · unfold splitIndices
    rw [if_pos ⟨hpos, hlt⟩]
  · have heq : Nat.ceil ((1/4 : ℚ) * n) = nTestOf (1/4) n := rfl
    rw [List.length_take, hlen, heq]
    omega
  · have heq : Nat.ceil ((1/4 : ℚ) * n) = nTestOf (1/4) n := rfl
    rw [List.length_drop, hlen, heq]

/-- Claim C6 witness: for nine samples the test subset receives
`ceil(0.25 * 9) = 3` samples and the train subset the remaining 6. -/
theorem split_test_count_is_ceil_witness :
    2 ≤ 9 ∧ (List.range 9).length = 9 ∧
    (∃ tr te, splitIndices (List.range 9) (1/4) 9 = Except.ok (tr, te) ∧
      te.length = Nat.ceil ((1/4 : ℚ) * 9) ∧
      tr.length = 9 - Nat.ceil ((1/4 : ℚ) * 9)) :=
  ⟨by omega, by simp, split_test_count_is_ceil 9 (List.range 9) (by omega)
    (by simp)⟩

/-- Claim C6 counterexample: for nine samples the claimed
`round(test_size * n)` is 2, but the splitter puts 3 samples into the test
subset. -/
theorem split_test_count_round_counterexample :
    splitIndices (List.range 9) (1/4) 9 =
      Except.ok ([3, 4, 5, 6, 7, 8], [0, 1, 2]) ∧
    (round ((1/4 : ℚ) * 9)).toNat = 2 ∧
    ([0, 1, 2] : List Nat).length ≠ (round ((1/4 : ℚ) * 9)).toNat := by
  have hceil : nTestOf (1/4) 9 = 3 := by
    rw [nTestOf, Nat.ceil_eq_iff (by norm_num)]
    norm_num
  have hround : (round ((1/4 : ℚ) * 9)).toNat = 2 := by
    norm_num [round_eq]
    rfl
  refine ⟨?_, hround, by rw [hround]; simp⟩
  unfold splitIndices
  rw [hceil]
  norm_num
  exact ⟨by decide, by decide⟩

/-- Claim C1: the scaling stage fits the scaler on the training subset only
(the fitted parameters are a function of the training matrix alone, so fit
never observes a test row), and applies the transform
`(value - mean[col]) / std[col]`, with mean and standard deviation taken per
column of the training matrix, to every row and column of both subsets. -/
theorem scaler_fit_train_only (XTr XTe : List (List ℝ)) :
    (SVM.scaleFeatures XTr XTe).1 = StandardScaler.fit XTr ∧
    (∀ XTe1 XTe2 : List (List ℝ),
      (SVM.scaleFeatures XTr XTe1).1 = (SVM.scaleFeatures XTr XTe2).1) ∧
    (SVM.scaleFeatures XTr XTe).2.1 =
      StandardScaler.transform (StandardScaler.fit XTr) XTr ∧
    (SVM.scaleFeatures XTr XTe).2.2 =
      StandardScaler.transform (StandardScaler.fit XTr) XTe ∧
    (∀ (X : List (List ℝ)) (i j : Nat), i < X.length → j < numFeatures XTr →
      ((StandardScaler.transform (StandardScaler.fit XTr) X).getD i []).getD
          j 0 =
        ((X.getD i []).getD j 0 - listMean (column XTr j)) /
          Real.sqrt (listVar (column XTr j))) := by
  refine ⟨rfl, fun _ _ => rfl, rfl, rfl, ?_⟩
  intro X i j hi hj
  have hmean_len : (StandardScaler.fit XTr).mean.length = numFeatures XTr := by
    simp [StandardScaler.fit]
  have h1 : (StandardScaler.fit XTr).mean.getD j 0 =
      listMean (column XTr j) := by
    simp only [StandardScaler.fit]
    exact getD_map_range _ j _ 0 hj
  have h2 : (StandardScaler.fit XTr).scale.getD j 0 =
      Real.sqrt (listVar (column XTr j)) := by
    simp only [StandardScaler.fit]
    exact getD_map_range _ j _ 0 hj
  rw [StandardScaler.transform,
    getD_map_lt (StandardScaler.transformRow (StandardScaler.fit XTr)) X i
      [] [] hi,
    StandardScaler.transformRow,
    getD_map_range _ j _ 0 (by rw [hmean_len]; exact hj), h1, h2]

/-- Claim C1 witness: fitting on the concrete training matrix [[0],[2]] and
transforming the concrete test matrix [[4]] standardizes entry (0,0) of the
test matrix with the training-set statistics. -/
theorem scaler_fit_train_only_witness :
    (0 : Nat) < ([[(4:ℝ)]] : List (List ℝ)).length ∧
    (0 : Nat) < numFeatures [[(0:ℝ)], [(2:ℝ)]] ∧
    ((StandardScaler.transform (StandardScaler.fit [[(0:ℝ)], [(2:ℝ)]])
        [[(4:ℝ)]]).getD 0 []).getD 0 0 =
      ((([[(4:ℝ)]] : List (List ℝ)).getD 0 []).getD 0 0 -
          listMean (column [[(0:ℝ)], [(2:ℝ)]] 0)) /
        Real.sqrt (listVar (column [[(0:ℝ)], [(2:ℝ)]] 0)) :=
  ⟨by simp, by simp [numFeatures],
    (scaler_fit_train_only [[(0:ℝ)], [(2:ℝ)]] [[(4:ℝ)]]).2.2.2.2 [[(4:ℝ)]]
      0 0 (by simp) (by simp [numFeatures])⟩

/-- Claim C5: the RNN shape adapter is a pure relabeling: reshaping a
length-4096 row into 64 steps of 64 values succeeds, flattening the steps
recovers the row, step `i` is the `i`-th block of 64 consecutive values (the
`i`-th row of the original 64 x 64 image, whose row-major flattening the row
is), and the reshape fails whenever the length differs from
`step_count * step_width`. -/
theorem reshape_pure_relabeling :
    (∀ row : List ℝ, row.length = 64 * 64 →
      reshapeRow 64 64 row = some (toSteps 64 64 row) ∧
      (toSteps 64 64 row).flatten = row ∧
      (∀ i : Nat, i < 64 →
        (toSteps 64 64 row).getD i [] = (row.drop (64 * i)).take 64)) ∧
    (∀ m : List (List ℝ), m.length = 64 → (∀ r ∈ m, r.length = 64) →
      reshapeRow 64 64 m.flatten = some m) ∧
    (∀ row : List ℝ, row.length ≠ 64 * 64 → reshapeRow 64 64 row = none) := by
  refine ⟨?_, ?_, ?_⟩
  · intro row h
    refine ⟨?_, toSteps_flatten 64 64 row h, ?_⟩
    · rw [reshapeRow, if_pos h]
    · exact fun i hi => toSteps_getD 64 64 i row hi
  · intro m hm hw
    have hflat : m.flatten.length = 64 * 64 := by
      rw [flatten_length_uniform 64 m hw, hm]
    have hgrid := toSteps_of_grid 64 m hw
    rw [hm] at hgrid
    rw [reshapeRow, if_pos hflat, hgrid]
  · intro row h
    rw [reshapeRow, if_neg h]

/-- Claim C5 witness: a concrete all-zero length-4096 row reshapes
successfully, flattens back to itself, and each step is the corresponding
64-wide block. -/
theorem reshape_pure_relabeling_witness :
    (List.replicate 4096 (0:ℝ)).length = 64 * 64 ∧
    (reshapeRow 64 64 (List.replicate 4096 (0:ℝ)) =
        some (toSteps 64 64 (List.replicate 4096 (0:ℝ))) ∧
      (toSteps 64 64 (List.replicate 4096 (0:ℝ))).flatten =
        List.replicate 4096 (0:ℝ) ∧
      (∀ i : Nat, i < 64 →
        (toSteps 64 64 (List.replicate 4096 (0:ℝ))).getD i [] =
          ((List.replicate 4096 (0:ℝ)).drop (64 * i)).take 64)) :=
  ⟨by rw [List.length_replicate], reshape_pure_relabeling.1
    (List.replicate 4096 (0:ℝ)) (by rw [List.length_replicate])⟩

/-- Claim C9: the first three pipeline stages of the two notebooks are
behaviorally identical: the RNN notebook loader, splitter and scaler agree
with the SVM notebook ones on every input. -/
theorem svm_rnn_shared_stages_agree :
    (∀ (fs : FileSystem) (folder : String),
      SVM.load_images_from_folder fs folder =
        RNN.load_images_from_folder fs folder) ∧
    (∀ XTr XTe : List (List ℝ),
      SVM.scaleFeatures XTr XTe = RNN.scaleFeatures XTr XTe) ∧
    (∀ (fs : FileSystem) (folder : String) (perm : List Nat),
      SVM.prepare fs folder perm = RNN.prepareScaled fs folder perm) :=
  ⟨fun _ _ => rfl, fun _ _ => rfl, fun _ _ _ => rfl⟩
